import Mathlib

/-!
Shallow embedding of the YouTube-Video-Summarizer pipeline (src/project.py).

External collaborators (the hosted transcript API, yt_dlp, whisper, the
Hugging Face summarization model) are opaque: each is modelled as a value or
function parameter describing the outcome of its single invocation in a call.
Python standard-library string utilities (urllib.parse, str.split, str.strip,
re.split) are modelled character-by-character on `List Char`, faithful to
their documented behaviour on the inputs the program feeds them; percent and
plus decoding of query values is omitted and theorems about query values are
restricted to values without `%` or `+`.
-/

set_option autoImplicit false

/-- Does the second character list start with the first one? -/
def hasPre : List Char → List Char → Bool
  | [], _ => true
  | _ :: _, [] => false
  | a :: as, b :: bs => a == b && hasPre as bs

/-- Python substring containment (`needle in hay`) on character lists. -/
def hasSub (needle : List Char) : List Char → Bool
  | [] => needle.isEmpty
  | c :: rest => hasPre needle (c :: rest) || hasSub needle rest

/-- Characters allowed in a URL scheme by urllib.parse (letters, digits, `+`, `-`, `.`). -/
def isSchemeTail (c : Char) : Bool := c.isAlphanum || c == '+' || c == '-' || c == '.'

/-- Relevant fields of urllib's parse result: netloc, path, query. -/
structure UrlParts where
  netloc : List Char
  path : List Char
  query : List Char
deriving Repr, DecidableEq

/-- Model of urllib.parse.urlparse, restricted to the three fields the program
reads: drop leading C0-control/space characters and remove every tab, CR and
LF (CPython's WHATWG sanitization); strip the fragment at the first `#`;
strip a syntactically valid `scheme:`; if the remainder starts with `//`, the
netloc runs to the first `/` or `?`; the query is everything after the first
`?` of the remainder. -/
def urlparseM (rawUrl : List Char) : UrlParts :=
  let url := (rawUrl.dropWhile (fun c => c.toNat ≤ 32)).filter
    (fun c => c != '\t' && c != '\r' && c != '\n')
  let noFrag := url.takeWhile (fun c => c != '#')
  let pre := noFrag.takeWhile (fun c => c != ':')
  let post := noFrag.dropWhile (fun c => c != ':')
  let rest :=
    if post.isEmpty then noFrag
    else
      match pre with
      | [] => noFrag
      | c :: _ => if c.isAlpha && pre.all isSchemeTail then post.drop 1 else noFrag
  if hasPre ['/', '/'] rest then
    let r := rest.drop 2
    ⟨r.takeWhile (fun c => c != '/' && c != '?'),
     (r.dropWhile (fun c => c != '/' && c != '?')).takeWhile (fun c => c != '?'),
     ((r.dropWhile (fun c => c != '/' && c != '?')).dropWhile (fun c => c != '?')).drop 1⟩
  else
    ⟨[], rest.takeWhile (fun c => c != '?'), (rest.dropWhile (fun c => c != '?')).drop 1⟩

/-- Python `query.split('&')`, with an explicit accumulator. -/
def splitAmpAux : List Char → List Char → List (List Char)
  | cur, [] => [cur.reverse]
  | cur, c :: rest =>
    if c == '&' then cur.reverse :: splitAmpAux [] rest else splitAmpAux (c :: cur) rest

/-- Model of `parse_qs(query).get("v", [None])[0]`: the value of the first
`v=`-pair with a nonempty value, pairs split on `&`, pairs without `=` or with
a blank value skipped (keep_blank_values is False). Percent-decoding omitted. -/
def parseQsV (query : List Char) : Option (List Char) :=
  ((splitAmpAux [] query).filterMap fun pair =>
    if pair.any (fun c => c == '=') then
      let name := pair.takeWhile (fun c => c != '=')
      let value := (pair.dropWhile (fun c => c != '=')).drop 1
      if name == ['v'] && !value.isEmpty then some value else none
    else none).head?

/-- src/project.py lines 21-27: `get_video_id`. The netloc tests are Python
substring tests; the short-domain branch returns `parsed.path[1:]`, the
long-domain branch returns `parse_qs(parsed.query).get("v", [None])[0]`. -/
def get_video_id (url : String) : Option String :=
  let parsed := urlparseM url.data
  if hasSub "youtu.be".data parsed.netloc then some (String.mk (parsed.path.drop 1))
  else if hasSub "youtube.com".data parsed.netloc then
    (parseQsV parsed.query).map fun v => String.mk v
  else none

/-- Python `" ".join(xs)`. -/
def joinSpace (xs : List String) : String := String.intercalate " " xs

/-- src/project.py lines 29-38: `get_transcript_youtube`. `api` is the outcome
of the one `YouTubeTranscriptApi.get_transcript` call: the list of segment
text fields on success, or the raised exception's message. A falsy video id
(None or empty) raises ValueError; any API exception is swallowed and turned
into `None` (absence); success joins the segment texts with single spaces. -/
def get_transcript_youtube (api : Except String (List String)) (url : String) :
    Except String (Option String) :=
  match get_video_id url with
  | none => .error "Invalid YouTube URL"
  | some vid =>
    if vid = "" then .error "Invalid YouTube URL"
    else
      match api with
      | .ok segs => .ok (some (joinSpace segs))
      | .error _ => .ok none

/-- Outcomes of the three external effects one `get_transcript` call can touch:
the transcript API, the yt_dlp download (ok = `audio.mp3` written), and the
whisper transcription. -/
structure Env where
  api : Except String (List String)
  dl : Except String Unit
  whisper : Except String String

/-- Observable outcome of one `get_transcript` call: the returned transcript or
raised exception, the status events emitted via the callback in order, how
often `download_audio` and `get_transcript_whisper` were invoked, whether the
temporary audio file was created, and whether it still exists when the call
returns or raises. -/
structure Run where
  result : Except String String
  events : List String
  dlCalls : Nat
  whisperCalls : Nat
  tmpCreated : Bool
  tmpExistsAfter : Bool

/-- Status string at src/project.py line 63. -/
def evRemote : String := "✔️ Transcript from YouTube API."

/-- Status string at src/project.py line 66. -/
def evFallback : String := "⚠️ YouTube transcript unavailable. Using Whisper..."

/-- Status string at src/project.py line 70. -/
def evWhisper : String := "✔️ Transcript generated using Whisper."

/-- src/project.py lines 66-71: the local fallback path of `get_transcript`.
Emits the fallback status, runs `download_audio` (creating `audio.mp3` on
success), runs `get_transcript_whisper`, then `os.remove(audio_path)` and the
success status. There is no try/finally: if whisper raises, `os.remove` is
never reached and the file persists. -/
def fallbackRun (env : Env) : Run :=
  match env.dl with
  | .error e => ⟨.error e, [evFallback], 1, 0, false, false⟩
  | .ok _ =>
    match env.whisper with
    | .error e => ⟨.error e, [evFallback], 1, 1, true, true⟩
    | .ok t => ⟨.ok t, [evFallback, evWhisper], 1, 1, true, false⟩

/-- src/project.py lines 60-71: `get_transcript`. The remote result is truthy
(Python `if transcript:`) only when it is a nonempty string; otherwise the
local fallback runs. A ValueError raised by `get_transcript_youtube` for an
invalid URL propagates before any status event is emitted. -/
def get_transcript (env : Env) (url : String) : Run :=
  match get_transcript_youtube env.api url with
  | .error e => ⟨.error e, [], 0, 0, false, false⟩
  | .ok (some t) =>
    if t = "" then fallbackRun env
    else ⟨.ok t, [evRemote], 0, 0, false, false⟩
  | .ok none => fallbackRun env

/-- Python `str.split()` whitespace (ASCII part): space, tab, LF, CR, VT, FF. -/
def pyWS (c : Char) : Bool :=
  c == ' ' || c == '\t' || c == '\n' || c == '\r' || c == '\x0b' || c == '\x0c'

/-- The character `.`, the argument of `line.strip('.')`. -/
def isDot (c : Char) : Bool := c == '.'

/-- Chunking loop with explicit fuel: each step emits `l.take n` and recurses
on `l.drop n`. For `1 ≤ n`, fuel `l.length` is enough to consume `l`. -/
def pyChunksGo (n : Nat) : Nat → List Char → List (List Char)
  | _, [] => []
  | 0, _ :: _ => []
  | fuel + 1, c :: rest => (c :: rest).take n :: pyChunksGo n fuel ((c :: rest).drop n)

/-- src/project.py line 76: `[text[i:i+max_chunk] for i in range(0, len(text), max_chunk)]`
for a positive step `n` (Python raises ValueError on step 0; the program only
uses step 1000). -/
def pyChunks (n : Nat) (l : List Char) : List (List Char) :=
  pyChunksGo n l.length l

/-- Is `c` in the class `[A-Z]` of the regex at src/project.py line 82? -/
def isUpperAZ (c : Char) : Bool := 65 ≤ c.toNat && c.toNat ≤ 90

/-- Scanner state for the regex `\. (?=[A-Z])`: nothing pending, a pending
period, or a pending period-plus-space awaiting the uppercase lookahead. -/
inductive ReState
  | plain
  | sawDot
  | sawDotSpace

/-- Model of `re.split(r'\. (?=[A-Z])', s)`: split on a period followed by a
space when the next character is an uppercase ASCII letter (the lookahead is
not consumed). `acc` holds the current section reversed; pending characters
that turn out not to complete a match fall back into the section. -/
def reSplitAux (st : ReState) (acc : List Char) : List Char → List (List Char)
  | [] =>
    match st with
    | .plain => [acc.reverse]
    | .sawDot => [('.' :: acc).reverse]
    | .sawDotSpace => [(' ' :: '.' :: acc).reverse]
  | c :: rest =>
    match st with
    | .plain =>
      if c == '.' then reSplitAux .sawDot acc rest
      else reSplitAux .plain (c :: acc) rest
    | .sawDot =>
      if c == ' ' then reSplitAux .sawDotSpace acc rest
      else if c == '.' then reSplitAux .sawDot ('.' :: acc) rest
      else reSplitAux .plain (c :: '.' :: acc) rest
    | .sawDotSpace =>
      if isUpperAZ c then acc.reverse :: reSplitAux .plain [c] rest
      else if c == '.' then reSplitAux .sawDot (' ' :: '.' :: acc) rest
      else reSplitAux .plain (c :: ' ' :: '.' :: acc) rest

/-- src/project.py line 82: `sections = re.split(r'\. (?=[A-Z])', full_summary)`. -/
def reSplit (l : List Char) : List (List Char) := reSplitAux .plain [] l

/-- Python `s.split()` (split on whitespace runs, dropping empty pieces), with
an explicit accumulator holding the current word reversed. -/
def splitWsAux : List Char → List Char → List (List Char)
  | cur, [] => if cur.isEmpty then [] else [cur.reverse]
  | cur, c :: l =>
    if pyWS c then (if cur.isEmpty then splitWsAux [] l else cur.reverse :: splitWsAux [] l)
    else splitWsAux (c :: cur) l

/-- Python `line.split()`. -/
def pySplitWs (l : List Char) : List (List Char) := splitWsAux [] l

/-- Python `line.strip()`: drop whitespace from both ends. -/
def pyStrip (l : List Char) : List Char :=
  ((l.dropWhile pyWS).reverse.dropWhile pyWS).reverse

/-- Python `line.strip('.')`: drop periods from both ends. -/
def stripDots (l : List Char) : List Char :=
  ((l.dropWhile isDot).reverse.dropWhile isDot).reverse

/-- src/project.py line 93: the bullet `f"• {line.strip('.')}.\n"` appended for
a surviving line. -/
def bulletLine (l : List Char) : List Char :=
  '•' :: ' ' :: (stripDots l ++ ['.', '\n'])

/-- src/project.py lines 88-93: the formatting loop over the sections. Each
section is stripped; empty lines are skipped; a line with more than 7 words
contributes its bullet. -/
def bulletLoop : List (List Char) → List Char
  | [] => []
  | s :: rest =>
    let line := pyStrip s
    if line.isEmpty then bulletLoop rest
    else if 7 < (pySplitWs line).length then bulletLine line ++ bulletLoop rest
    else bulletLoop rest

/-- The stripped sections that survive the loop's filters, in order. -/
def keptLines (secs : List (List Char)) : List (List Char) :=
  (secs.map pyStrip).filter fun l => !l.isEmpty && decide (7 < (pySplitWs l).length)

/-- src/project.py line 84: `current_heading = "🔹 Key Points"`. -/
def current_heading : String := "🔹 Key Points"

/-- src/project.py lines 82-96: the reformatting stage of `summarize_text`,
applied to the concatenated model output `full_summary`: the heading line
`f"{current_heading}:\n"` followed by the bullets produced by the loop. -/
def formatSummary (full : String) : String :=
  String.mk (current_heading.data ++ (':' :: '\n' :: bulletLoop (reSplit full.data)))

/-- src/project.py lines 76-78: chunk the text, run the summarization model on
each chunk (`model` maps a chunk to its `summary_text`; `do_sample=False`
makes it a function of the chunk), and join the outputs with single spaces. -/
def fullSummary (model : String → String) (text : String) (max_chunk : Nat) : String :=
  joinSpace ((pyChunks max_chunk text.data).map fun c => model (String.mk c))

/-- src/project.py lines 73-96: `summarize_text` (the returned string; the
status callbacks do not affect it). -/
def summarize_text (model : String → String) (text : String) (max_chunk : Nat) : String :=
  formatSummary (fullSummary model text max_chunk)

/-! ## List helpers -/

theorem all_dropWhile {α : Type} {p : α → Bool} : ∀ {l : List α}, l.all p = true →
    l.dropWhile p = []
  | [], _ => rfl
  | a :: l, h => by
    rw [List.all_cons, Bool.and_eq_true] at h
    simp [List.dropWhile_cons, h.1, all_dropWhile h.2]

theorem head?_app {α : Type} (l₁ l₂ : List α) (h : l₁ ≠ []) :
    (l₁ ++ l₂).head? = l₁.head? := by
  cases l₁ with
  | nil => exact absurd rfl h
  | cons a l => rfl

theorem head?_dropWhile {α : Type} {p : α → Bool} :
    ∀ {l : List α} {c : α}, (l.dropWhile p).head? = some c → p c = false
  | [], c, h => by simp [List.dropWhile] at h
  | a :: l, c, h => by
    by_cases ha : p a
    · rw [List.dropWhile_cons, if_pos ha] at h
      exact head?_dropWhile h
    · rw [List.dropWhile_cons, if_neg ha] at h
      cases h
      exact Bool.of_not_eq_true ha

/-! ## Word counting (`line.split()`): an automaton view of `splitWsAux` -/

/-- Word count of the remaining input, given whether we are currently inside a
word (`b = true`). -/
def wcAux : Bool → List Char → Nat
  | _, [] => 0
  | b, c :: l => if pyWS c then wcAux false l else (if b then 0 else 1) + wcAux true l

/-- The inside-a-word state after scanning `l` starting from state `b`. -/
def afterW : Bool → List Char → Bool
  | b, [] => b
  | _, c :: l => afterW (!pyWS c) l

theorem wcAux_append (l m : List Char) : ∀ b : Bool,
    wcAux b (l ++ m) = wcAux b l + wcAux (afterW b l) m := by
  induction l with
  | nil => intro b; simp [wcAux, afterW]
  | cons c l ih =>
    intro b
    by_cases hc : pyWS c <;>
      simp [wcAux, afterW, hc, ih, Nat.add_assoc]

theorem wcAux_true_le (l : List Char) : wcAux true l ≤ wcAux false l := by
  cases l with
  | nil => exact Nat.le_refl 0
  | cons c l => by_cases hc : pyWS c <;> simp [wcAux, hc]

theorem wcAux_false_le (l : List Char) : wcAux false l ≤ wcAux true l + 1 := by
  cases l with
  | nil => exact Nat.zero_le 1
  | cons c l => by_cases hc : pyWS c <;> simp [wcAux, hc, Nat.add_comm]

theorem wcAux_solid : ∀ {l : List Char}, l ≠ [] → (∀ c ∈ l, pyWS c = false) →
    ∀ b, wcAux b l = if b then 0 else 1
  | [], hne, _, _ => absurd rfl hne
  | c :: l, _, h, b => by
    have hc : pyWS c = false := h c (List.mem_cons_self c l)
    cases l with
    | nil => cases b <;> simp [wcAux, hc]
    | cons d l =>
      have ih : wcAux true (d :: l) = 0 := by
        simpa using wcAux_solid (List.cons_ne_nil d l)
          (fun x hx => h x (List.mem_cons_of_mem c hx)) true
      show (if pyWS c then wcAux false (d :: l)
          else (if b then 0 else 1) + wcAux true (d :: l)) = if b then 0 else 1
      simp only [hc, ih]
      cases b <;> simp

theorem afterW_solid : ∀ {l : List Char}, l ≠ [] → (∀ c ∈ l, pyWS c = false) →
    ∀ b, afterW b l = true
  | [], hne, _, _ => absurd rfl hne
  | c :: l, _, h, b => by
    have hc : pyWS c = false := h c (List.mem_cons_self c l)
    cases l with
    | nil => simp [afterW, hc]
    | cons d l =>
      exact afterW_solid (List.cons_ne_nil d l)
        (fun x hx => h x (List.mem_cons_of_mem c hx)) (!pyWS c)

theorem afterW_concat (l : List Char) (c : Char) : ∀ b, afterW b (l ++ [c]) = !pyWS c := by
  induction l with
  | nil => intro b; rfl
  | cons d l ih => intro b; simp [afterW, ih]

theorem splitWsAux_length (l : List Char) : ∀ cur,
    (splitWsAux cur l).length = wcAux (!cur.isEmpty) l + (if cur.isEmpty then 0 else 1) := by
  induction l with
  | nil =>
    intro cur
    cases cur <;> simp [splitWsAux, wcAux]
  | cons c l ih =>
    intro cur
    by_cases hc : pyWS c
    · cases cur <;> simp [splitWsAux, wcAux, hc, ih]
    · cases cur <;> simp [splitWsAux, wcAux, hc, ih, Nat.add_comm]

theorem pySplitWs_length (l : List Char) : (pySplitWs l).length = wcAux false l := by
  simpa [pySplitWs] using splitWsAux_length l []

/-! ## The bullet filter keeps the word count above 7 -/

theorem wc_rstrip_dot (m : List Char) (hne : m ≠ [])
    (hlast : ∀ c, m.reverse.head? = some c → pyWS c = false) :
    wcAux false ((m.reverse.dropWhile isDot).reverse ++ ['.', '\n']) = wcAux false m := by
  have dot_nws : ∀ c : Char, isDot c = true → pyWS c = false := by
    intro c hc
    have hc' : c = '.' := eq_of_beq hc
    subst hc'
    rfl
  have hsplit := List.takeWhile_append_dropWhile (p := isDot) (l := m.reverse)
  have hm : (m.reverse.dropWhile isDot).reverse ++ (m.reverse.takeWhile isDot).reverse = m := by
    rw [← List.reverse_append, hsplit, List.reverse_reverse]
  set l2 := (m.reverse.dropWhile isDot).reverse with hl2
  set d2 := (m.reverse.takeWhile isDot).reverse with hd2
  have h1 := wcAux_append l2 ['.', '\n'] false
  have h2 := wcAux_append l2 d2 false
  rw [hm] at h2
  by_cases hcase : d2 = []
  · have hl2m : l2 = m := by rw [← hm, hcase, List.append_nil]
    obtain ⟨c, tl, hct⟩ : ∃ c tl, m.reverse = c :: tl := by
      cases hmr : m.reverse with
      | nil => exact absurd (by simpa using hmr) hne
      | cons c tl => exact ⟨c, tl, rfl⟩
    have hcw : pyWS c = false := hlast c (by rw [hct]; rfl)
    have hmform : m = tl.reverse ++ [c] := by
      have hrr := congrArg List.reverse hct
      rw [List.reverse_reverse] at hrr
      rw [hrr]
      exact List.reverse_cons c tl
    have haft : afterW false m = true := by
      rw [hmform, afterW_concat, hcw]
      rfl
    have e0 : wcAux true ['.', '\n'] = 0 := by decide
    rw [h1, hl2m, haft, e0]
    omega
  · have hd2all : ∀ x ∈ d2, pyWS x = false := by
      intro x hx
      rw [hd2, List.mem_reverse] at hx
      exact dot_nws x (List.mem_takeWhile_imp hx)
    have e1 : wcAux (afterW false l2) d2 = if afterW false l2 then 0 else 1 :=
      wcAux_solid hcase hd2all _
    have e2 : wcAux (afterW false l2) ['.', '\n'] = if afterW false l2 then 0 else 1 := by
      cases hb : afterW false l2
      · decide
      · decide
    rw [h1, e2, h2, e1]

theorem bulletLine_words (line : List Char) (hne : line ≠ [])
    (hlast : ∀ c, line.reverse.head? = some c → pyWS c = false)
    (hcount : 7 < (pySplitWs line).length) :
    7 < (pySplitWs (bulletLine line)).length := by
  have dot_nws : ∀ c : Char, isDot c = true → pyWS c = false := by
    intro c hc
    have hc' : c = '.' := eq_of_beq hc
    subst hc'
    rfl
  rw [pySplitWs_length] at hcount ⊢
  have hbul : wcAux false (bulletLine line) =
      1 + wcAux false (stripDots line ++ ['.', '\n']) := by
    simp [bulletLine, wcAux, show pyWS '•' = false from by decide,
      show pyWS ' ' = true from by decide]
  rw [hbul]
  have hsplit := List.takeWhile_append_dropWhile (p := isDot) (l := line)
  have happ := wcAux_append (line.takeWhile isDot) (line.dropWhile isDot) false
  rw [hsplit] at happ
  have hmne : line.dropWhile isDot ≠ [] := by
    intro h0
    rw [h0, List.append_nil] at hsplit
    have hall : ∀ c ∈ line, pyWS c = false := by
      intro c hc
      rw [← hsplit] at hc
      exact dot_nws c (List.mem_takeWhile_imp hc)
    rw [wcAux_solid hne hall false] at hcount
    simp at hcount
  have hWm : 7 ≤ wcAux false (line.dropWhile isDot) := by
    by_cases hd : line.takeWhile isDot = []
    · rw [hd] at happ
      simp [wcAux, afterW] at happ
      omega
    · have hall : ∀ c ∈ line.takeWhile isDot, pyWS c = false := fun c hc =>
        dot_nws c (List.mem_takeWhile_imp hc)
      rw [wcAux_solid hd hall false, afterW_solid hd hall false] at happ
      have hle := wcAux_true_le (line.dropWhile isDot)
      simp at happ
      omega
  have hmlast : ∀ c, (line.dropWhile isDot).reverse.head? = some c → pyWS c = false := by
    intro c hc
    apply hlast
    rw [← hsplit, List.reverse_append, head?_app]
    · exact hc
    · simpa using hmne
  have hsd : stripDots line = ((line.dropWhile isDot).reverse.dropWhile isDot).reverse := rfl
  rw [hsd, wc_rstrip_dot (line.dropWhile isDot) hmne hmlast]
  omega

/-! ## The formatting loop is a filter-map over the sections -/

theorem keptLines_spec (secs : List (List Char)) (l : List Char) (hl : l ∈ keptLines secs) :
    l ≠ [] ∧ (∀ c, l.reverse.head? = some c → pyWS c = false) ∧ 7 < (pySplitWs l).length := by
  rw [keptLines, List.mem_filter] at hl
  obtain ⟨hmem, hpred⟩ := hl
  rw [Bool.and_eq_true] at hpred
  obtain ⟨hne', hcnt⟩ := hpred
  obtain ⟨s, _, hs⟩ := List.mem_map.mp hmem
  refine ⟨?_, ?_, of_decide_eq_true hcnt⟩
  · intro h0
    rw [h0] at hne'
    simp at hne'
  · intro c hc
    rw [← hs] at hc
    have hrev : (pyStrip s).reverse = (s.dropWhile pyWS).reverse.dropWhile pyWS := by
      rw [pyStrip, List.reverse_reverse]
    rw [hrev] at hc
    exact head?_dropWhile hc

theorem bulletLoop_eq (secs : List (List Char)) :
    bulletLoop secs = ((keptLines secs).map bulletLine).flatten := by
  induction secs with
  | nil => rfl
  | cons s rest ih =>
    by_cases h1 : (pyStrip s).isEmpty
    · simp [bulletLoop, keptLines, List.filter_cons, h1, ih]
    · by_cases h2 : 7 < (pySplitWs (pyStrip s)).length
      · simp [bulletLoop, keptLines, List.filter_cons, h1, h2, ih]
      · simp [bulletLoop, keptLines, List.filter_cons, h1, h2, ih]

/-! ## Chunking lemmas -/

theorem pyChunksGo_nil (n fuel : Nat) : pyChunksGo n fuel [] = [] := by
  cases fuel <;> rfl

theorem pyChunksGo_flatten (n : Nat) (hn : 0 < n) : ∀ (fuel : Nat) (l : List Char),
    l.length ≤ fuel → (pyChunksGo n fuel l).flatten = l := by
  intro fuel
  induction fuel with
  | zero =>
    intro l hl
    rw [List.eq_nil_of_length_eq_zero (Nat.le_zero.mp hl)]
    rfl
  | succ fuel ih =>
    intro l hl
    cases l with
    | nil => rfl
    | cons c rest =>
      rw [pyChunksGo, List.flatten_cons, ih]
      · exact List.take_append_drop n (c :: rest)
      · rw [List.length_drop]
        simp only [List.length_cons] at hl ⊢
        omega

theorem pyChunksGo_sizes (n : Nat) : ∀ (fuel : Nat) (l : List Char),
    ∀ c ∈ pyChunksGo n fuel l, c.length ≤ n := by
  intro fuel
  induction fuel with
  | zero =>
    intro l c hc
    cases l <;> simp [pyChunksGo] at hc
  | succ fuel ih =>
    intro l c hc
    cases l with
    | nil => simp [pyChunksGo] at hc
    | cons a rest =>
      rw [pyChunksGo, List.mem_cons] at hc
      cases hc with
      | inl h =>
        rw [h, List.length_take]
        exact Nat.min_le_left n _
      | inr h => exact ih _ c h

theorem pyChunks_singleton (n : Nat) (l : List Char) (hne : l ≠ []) (hle : l.length ≤ n) :
    pyChunks n l = [l] := by
  cases l with
  | nil => exact absurd rfl hne
  | cons c rest =>
    rw [pyChunks, List.length_cons, pyChunksGo, List.take_of_length_le hle,
      List.drop_eq_nil_of_le hle, pyChunksGo_nil]

/-! ## URL parsing on the two recognized shapes -/

/-- Claim C1, counterexample: on the fallback path, when the download succeeds
and the local (whisper) transcription raises, the temporary audio file was
created but still exists when the call raises — the claimed unconditional
deletion does not hold. -/
theorem claim_C1_counterexample :
    (get_transcript ⟨.error "no captions", .ok (), .error "whisper failed"⟩
        "https://youtu.be/abc").tmpCreated = true
    ∧ (get_transcript ⟨.error "no captions", .ok (), .error "whisper failed"⟩
        "https://youtu.be/abc").tmpExistsAfter = true
    ∧ (get_transcript ⟨.error "no captions", .ok (), .error "whisper failed"⟩
        "https://youtu.be/abc").result = .error "whisper failed" :=
  ⟨rfl, rfl, rfl⟩

/-- Claim C1, amended: on every acquisition call that takes the local fallback
path, the audio retriever runs exactly once; on the successful exit path the
temporary file is deleted before the call returns, and when the download
raises no file is created — but when the local transcription raises after the
file was created the file is NOT deleted and still exists afterwards. -/
theorem claim_C1_amended (env : Env) (url : String) (r : Option String)
    (hr : get_transcript_youtube env.api url = .ok r)
    (hfb : r = none ∨ r = some "") :
    (get_transcript env url).dlCalls = 1
    ∧ (∀ t, env.dl = .ok () → env.whisper = .ok t →
        (get_transcript env url).tmpCreated = true
        ∧ (get_transcript env url).tmpExistsAfter = false)
    ∧ (∀ e, env.dl = .error e →
        (get_transcript env url).tmpCreated = false
        ∧ (get_transcript env url).tmpExistsAfter = false)
    ∧ (∀ e, env.dl = .ok () → env.whisper = .error e →
        (get_transcript env url).tmpCreated = true
        ∧ (get_transcript env url).tmpExistsAfter = true) := by
  have hrun : get_transcript env url = fallbackRun env := by
    cases hfb with
    | inl h => subst h; simp [get_transcript, hr]
    | inr h => subst h; simp [get_transcript, hr]
  rw [hrun]
  refine ⟨?_, ?_, ?_, ?_⟩
  · cases hdl : env.dl with
    | error e => simp [fallbackRun, hdl]
    | ok u => cases hw : env.whisper <;> simp [fallbackRun, hdl, hw]
  · intro t h1 h2
    simp [fallbackRun, h1, h2]
  · intro e h1
    simp [fallbackRun, h1]
  · intro e h1 h2
    simp [fallbackRun, h1, h2]

theorem claim_C1_witness :
    (get_transcript ⟨.error "x", .ok (), .ok "w"⟩ "https://youtu.be/abc").dlCalls = 1
    ∧ (get_transcript ⟨.error "x", .ok (), .ok "w"⟩
        "https://youtu.be/abc").tmpExistsAfter = false := by
  have h := claim_C1_amended ⟨.error "x", .ok (), .ok "w"⟩ "https://youtu.be/abc" none rfl
    (Or.inl rfl)
  exact ⟨h.1, (h.2.1 "w" rfl rfl).2⟩

/-- Claim C2: when the remote fetcher returns (nonempty) transcript text, the
orchestrator returns exactly that text and never invokes the audio retriever
or the local transcriber. (The degenerate empty-string result is treated as
absence; see claim C10.) -/
theorem claim_C2_theorem (env : Env) (url : String) (t : String)
    (hremote : get_transcript_youtube env.api url = .ok (some t)) (hne : t ≠ "") :
    (get_transcript env url).result = .ok t
    ∧ (get_transcript env url).dlCalls = 0
    ∧ (get_transcript env url).whisperCalls = 0 := by
  have hrun : get_transcript env url = ⟨.ok t, [evRemote], 0, 0, false, false⟩ := by
    simp [get_transcript, hremote, hne]
  rw [hrun]
  exact ⟨rfl, rfl, rfl⟩

theorem claim_C2_witness :
    (get_transcript ⟨.ok ["hello", "world"], .error "x", .error "y"⟩
        "https://youtu.be/abc").result = .ok "hello world"
    ∧ (get_transcript ⟨.ok ["hello", "world"], .error "x", .error "y"⟩
        "https://youtu.be/abc").dlCalls = 0
    ∧ (get_transcript ⟨.ok ["hello", "world"], .error "x", .error "y"⟩
        "https://youtu.be/abc").whisperCalls = 0 :=
  claim_C2_theorem ⟨.ok ["hello", "world"], .error "x", .error "y"⟩
    "https://youtu.be/abc" "hello world" rfl (by decide)

/-- Claim C3: for every model and input text, the summarizer's output is the
fixed heading line followed by exactly the bullets of the surviving sections
in original order (no reordering, no deduplication); every bullet line
contains strictly more than 7 whitespace-separated words; and when every
candidate line is filtered out the output is the heading line alone. The
fixed heading line contains the text "Key Points". -/
theorem claim_C3_theorem (model : String → String) (text : String) :
    (summarize_text model text 1000).data
      = current_heading.data ++ ':' :: '\n' ::
          ((keptLines (reSplit (fullSummary model text 1000).data)).map bulletLine).flatten
    ∧ (∀ l ∈ keptLines (reSplit (fullSummary model text 1000).data),
        7 < (pySplitWs (bulletLine l)).length)
    ∧ (keptLines (reSplit (fullSummary model text 1000).data) = [] →
        summarize_text model text 1000 = "🔹 Key Points:\n")
    ∧ hasSub "Key Points".data current_heading.data = true := by
  refine ⟨?_, ?_, ?_, by decide⟩
  · show (formatSummary (fullSummary model text 1000)).data = _
    rw [formatSummary, bulletLoop_eq]
  · intro l hl
    obtain ⟨h1, h2, h3⟩ := keptLines_spec _ l hl
    exact bulletLine_words l h1 h2 h3
  · intro h0
    show formatSummary (fullSummary model text 1000) = _
    rw [formatSummary, bulletLoop_eq, h0]
    rfl

theorem claim_C3_witness :
    7 < (pySplitWs (bulletLine
        "This is one long sentence with more than seven words".data)).length
    ∧ summarize_text (fun _ => "") "" 1000 = "🔹 Key Points:\n" :=
  ⟨(claim_C3_theorem (fun _ => "This is one long sentence with more than seven words")
        "x").2.1 "This is one long sentence with more than seven words".data (by decide),
   (claim_C3_theorem (fun _ => "") "").2.2.1 (by decide)⟩

/-- Claim C4: on the concatenated model output from the spec, the sentence
split yields three sections, the word-count filter keeps exactly the one long
sentence, and the formatted output is the heading plus that single bullet. -/
theorem claim_C4_theorem :
    reSplit "Short bit. This is a sufficiently long sentence for inclusion here. Another tiny one.".data
      = ["Short bit".data,
         "This is a sufficiently long sentence for inclusion here".data,
         "Another tiny one.".data]
    ∧ keptLines (reSplit "Short bit. This is a sufficiently long sentence for inclusion here. Another tiny one.".data)
      = ["This is a sufficiently long sentence for inclusion here".data]
    ∧ formatSummary "Short bit. This is a sufficiently long sentence for inclusion here. Another tiny one."
      = "🔹 Key Points:\n• This is a sufficiently long sentence for inclusion here.\n" :=
  ⟨rfl, rfl, rfl⟩

/-- Claim C6: for a URL with a valid (truthy) video id, any failure of the
hosted-transcript API is swallowed and reported as absence (`.ok none`, never
a raised error), and on success the per-segment texts are concatenated with
single-space separators. -/
theorem claim_C6_theorem (api : Except String (List String)) (url : String) (vid : String)
    (hvid : get_video_id url = some vid) (hne : vid ≠ "") :
    (∀ e, api = .error e → get_transcript_youtube api url = .ok none)
    ∧ (∀ segs, api = .ok segs →
        get_transcript_youtube api url = .ok (some (String.intercalate " " segs))) := by
  constructor
  · intro e he
    simp [get_transcript_youtube, hvid, hne, he]
  · intro segs hs
    simp [get_transcript_youtube, hvid, hne, hs, joinSpace]

theorem claim_C6_witness :
    get_transcript_youtube (.error "HTTP 429: too many requests") "https://youtu.be/abc"
      = .ok none
    ∧ get_transcript_youtube (.ok ["first segment", "second segment"]) "https://youtu.be/abc"
      = .ok (some "first segment second segment") := by
  refine ⟨?_, ?_⟩
  · exact (claim_C6_theorem (.error "HTTP 429: too many requests") "https://youtu.be/abc"
      "abc" rfl (by decide)).1 "HTTP 429: too many requests" rfl
  · have h := (claim_C6_theorem (.ok ["first segment", "second segment"])
      "https://youtu.be/abc" "abc" rfl (by decide)).2 ["first segment", "second segment"] rfl
    rw [h]
    rfl

/-- Claim C7, counterexample: the empty input text is shorter than the chunk
size, yet it yields zero chunks and therefore zero summarization-model
invocations, not exactly one; the joined model output is empty no matter what
the model returns. -/
theorem claim_C7_counterexample :
    ("" : String).length < 1000
    ∧ pyChunks 1000 ("" : String).data = []
    ∧ (pyChunks 1000 ("" : String).data).length ≠ 1
    ∧ fullSummary (fun _ => "chunk summary") "" 1000 = "" :=
  ⟨by decide, rfl, by decide, rfl⟩

/-- Claim C7, amended: the chunks are contiguous (their concatenation is the
raw input) and each is at most 1000 characters; every NONEMPTY input shorter
than the chunk size produces exactly one model invocation (the joined model
output is the model applied to the whole text); the empty input produces zero
invocations. -/
theorem claim_C7_theorem :
    (∀ text : String, (pyChunks 1000 text.data).flatten = text.data)
    ∧ (∀ text : String, ∀ c ∈ pyChunks 1000 text.data, c.length ≤ 1000)
    ∧ (∀ (model : String → String) (text : String), text ≠ "" → text.length < 1000 →
        (pyChunks 1000 text.data).length = 1 ∧ fullSummary model text 1000 = model text)
    ∧ pyChunks 1000 ("" : String).data = [] := by
  refine ⟨?_, ?_, ?_, rfl⟩
  · intro text
    exact pyChunksGo_flatten 1000 (by norm_num) text.data.length text.data (Nat.le_refl _)
  · intro text c hc
    exact pyChunksGo_sizes 1000 _ _ c hc
  · intro model text hne hlt
    have hne' : text.data ≠ [] := fun h0 => hne (String.ext h0)
    have hlen : text.data.length ≤ 1000 := by
      have hl : text.length = text.data.length := rfl
      omega
    have hone := pyChunks_singleton 1000 text.data hne' hlen
    constructor
    · rw [hone]
      rfl
    · rw [fullSummary, hone]
      show joinSpace [model text] = model text
      rfl

theorem claim_C7_witness :
    (pyChunks 1000 ("abc" : String).data).length = 1
    ∧ fullSummary (fun s => s ++ "!") "abc" 1000 = "abc!" := by
  have h := claim_C7_theorem.2.2.1 (fun s => s ++ "!") "abc" (by decide) (by decide)
  exact ⟨h.1, h.2⟩

/-- Claim C8: with deterministic decoding the summarizer is a function of its
input text — two calls with identical input text (and the same per-chunk
model function) return identical output strings. -/
theorem claim_C8_theorem (model : String → String) (t1 t2 : String) (h : t1 = t2) :
    summarize_text model t1 1000 = summarize_text model t2 1000 := by
  rw [h]

theorem claim_C8_witness :
    summarize_text (fun s => s) "same input" 1000
      = summarize_text (fun s => s) "same input" 1000 :=
  claim_C8_theorem (fun s => s) "same input" "same input" rfl

/-- Claim C9: status events are exactly the pipeline-ordered list returned
with the call (so none is emitted after the call returns): the remote-success
path emits exactly the remote-obtained event; the fallback path emits the
remote-unavailable event first and the local-obtained event after it only
when both fallback sub-steps succeed; error paths emit no later event. -/
theorem claim_C9_theorem (env : Env) (url : String) :
    (∀ t, get_transcript_youtube env.api url = .ok (some t) → t ≠ "" →
      (get_transcript env url).events = [evRemote])
    ∧ (∀ r, get_transcript_youtube env.api url = .ok r → (r = none ∨ r = some "") →
        (∀ t, env.dl = .ok () → env.whisper = .ok t →
          (get_transcript env url).events = [evFallback, evWhisper])
        ∧ (∀ e, env.dl = .error e → (get_transcript env url).events = [evFallback])
        ∧ (∀ e, env.dl = .ok () → env.whisper = .error e →
          (get_transcript env url).events = [evFallback]))
    ∧ (∀ e, get_transcript_youtube env.api url = .error e →
        (get_transcript env url).events = []) := by
  refine ⟨?_, ?_, ?_⟩
  · intro t hr hne
    simp [get_transcript, hr, hne]
  · intro r hr hcase
    have hrun : get_transcript env url = fallbackRun env := by
      cases hcase with
      | inl h => subst h; simp [get_transcript, hr]
      | inr h => subst h; simp [get_transcript, hr]
    rw [hrun]
    refine ⟨?_, ?_, ?_⟩
    · intro t h1 h2
      simp [fallbackRun, h1, h2]
    · intro e h1
      simp [fallbackRun, h1]
    · intro e h1 h2
      simp [fallbackRun, h1, h2]
  · intro e hr
    simp [get_transcript, hr]

theorem claim_C9_witness :
    (get_transcript ⟨.ok ["hi", "there"], .error "x", .error "y"⟩
        "https://youtu.be/abc").events = [evRemote]
    ∧ (get_transcript ⟨.error "no captions", .ok (), .ok "w"⟩
        "https://youtu.be/abc").events = [evFallback, evWhisper] := by
  constructor
  · exact (claim_C9_theorem ⟨.ok ["hi", "there"], .error "x", .error "y"⟩
      "https://youtu.be/abc").1 "hi there" rfl (by decide)
  · exact ((claim_C9_theorem ⟨.error "no captions", .ok (), .ok "w"⟩
      "https://youtu.be/abc").2.1 none rfl (Or.inl rfl)).1 "w" rfl rfl

/-- Claim C10: when the remote fetcher succeeds but the transcript text is
empty, the orchestrator runs the same local fallback path as on absence (the
audio retriever is invoked) instead of returning the empty transcript; the
outcome is identical to that of an absence-signal run with the same download
and whisper outcomes. -/
theorem claim_C10_theorem (env : Env) (url : String)
    (h : get_transcript_youtube env.api url = .ok (some "")) :
    get_transcript env url = fallbackRun env
    ∧ (get_transcript env url).dlCalls = 1
    ∧ ∀ env' : Env, env'.dl = env.dl → env'.whisper = env.whisper →
        get_transcript_youtube env'.api url = .ok none →
        get_transcript env url = get_transcript env' url := by
  have hrun : get_transcript env url = fallbackRun env := by
    simp [get_transcript, h]
  refine ⟨hrun, ?_, ?_⟩
  · rw [hrun]
    cases hdl : env.dl with
    | error e => simp [fallbackRun, hdl]
    | ok u => cases hw : env.whisper <;> simp [fallbackRun, hdl, hw]
  · intro env' hdl hw h'
    have hrun' : get_transcript env' url = fallbackRun env' := by
      simp [get_transcript, h']
    have hsame : fallbackRun env' = fallbackRun env := by
      unfold fallbackRun
      rw [hdl, hw]
    rw [hrun, hrun', hsame]

theorem claim_C10_witness :
    get_transcript ⟨.ok [], .ok (), .ok "whisper text"⟩ "https://youtu.be/abc"
      = fallbackRun ⟨.ok [], .ok (), .ok "whisper text"⟩
    ∧ (get_transcript ⟨.ok [], .ok (), .ok "whisper text"⟩
        "https://youtu.be/abc").dlCalls = 1 := by
  have h := claim_C10_theorem ⟨.ok [], .ok (), .ok "whisper text"⟩ "https://youtu.be/abc" rfl
  exact ⟨h.1, h.2.1⟩
